import Mathlib

/-!
Verification development for the SolVault NFT backup and verification
pipeline.  Each Go function relevant to the checked properties is embedded
as an executable Lean definition; theorems establish or refute the stated
properties of the specification.

Sources embedded:
  cmd/solvault/cmd/verify.go        performVerification
  internal/solana/config.go         FetchNFTInfo (mint-data block),
                                    parseMetadataURI, parseFlexibleMetadata
  internal/fetcher (media file)     DownloadMedia
  internal/storage/filesystem.go    SaveNFT, GetNFT, ListNFTs, buildNFTPath,
                                    calculateChecksum
-/

namespace SolVault

/-! ## Verification engine (cmd/solvault/cmd/verify.go) -/

/-- Input state of one call to performVerification, abstracting the file
system reads it performs.  imageHashIO models the outcome of
computeFileHash on the located image file (none = an I O error);
metadataHashIO likewise for metadata.json, consulted only when the file
exists.  hashFileContent is the content of hash.txt when the file exists
and reading succeeds, none otherwise.  forceRecompute is the command-line
flag of the same name. -/
structure VerifyInput where
  hasImage : Bool
  imageHashIO : Option String
  hasMetadata : Bool
  metadataHashIO : Option String
  hashFileContent : Option String
  forceRecompute : Bool
deriving Repr, DecidableEq

/-- The fields of the Go VerificationResult struct that the verification
logic computes (display-only fields omitted).  errorCount is the length of
the Errors slice at the moment Status is determined. -/
structure VerificationOutcome where
  status : String
  imageHash : String
  metadataHash : String
  storedHash : String
  hashMatch : Bool
  errorCount : Nat
deriving Repr, DecidableEq

/-- Embedding of performVerification (verify.go lines 98 to 169).  Returns
the computed result together with the content written to hash.txt by the
final block (none when nothing is written).  File writes are modeled as
succeeding; the write happens after the status is determined, exactly as
in the source. -/
def performVerification (s : VerifyInput) : VerificationOutcome × Option String :=
  if !s.hasImage then
    ({ status := "incomplete", imageHash := "", metadataHash := "",
       storedHash := "", hashMatch := false, errorCount := 1 }, none)
  else
    let imagePair : String × Nat :=
      match s.imageHashIO with
      | some h => (h, 0)
      | none => ("", 1)
    let metaPair : String × Nat :=
      if s.hasMetadata then
        match s.metadataHashIO with
        | some h => (h, 0)
        | none => ("", 1)
      else ("", 0)
    let storedHash := s.hashFileContent.getD ""
    let hashMatch :=
      match s.hashFileContent with
      | some c => imagePair.1 == c
      | none => false
    let errorCount := imagePair.2 + metaPair.2
    let status :=
      if errorCount > 0 then "error"
      else if hashMatch || storedHash == "" then "authentic"
      else "tampered"
    let doWrite := (storedHash == "" || s.forceRecompute) && !(imagePair.1 == "")
    let written := if doWrite then some imagePair.1 else none
    let storedHashF := if doWrite then imagePair.1 else storedHash
    let hashMatchF := if doWrite then true else hashMatch
    ({ status := status, imageHash := imagePair.1, metadataHash := metaPair.1,
       storedHash := storedHashF, hashMatch := hashMatchF,
       errorCount := errorCount }, written)

/-! ## Mint-account parsing block of Fetcher.FetchNFTInfo
(internal/solana/config.go lines 236 to 254).  The Go code leaves Supply
and Decimals at their zero values when the account data is shorter than 44
bytes, hard-codes Supply to 1 otherwise, reads Decimals from byte 44 only
when the data is strictly longer than 44 bytes, and rejects nonzero
decimals. -/

/-- Embedding of the supply and decimals extraction of FetchNFTInfo.
Returns ok (supply, decimals) when FetchNFTInfo proceeds past the block,
and error when it returns the decimals validation error. -/
def parseMintData (data : List Nat) : Except String (Nat × Nat) :=
  if 44 ≤ data.length then
    let decimals := if 44 < data.length then data.getD 44 0 else 0
    let supply := 1
    if decimals ≠ 0 then
      Except.error "this token has nonzero decimals - NFTs should have 0 decimals"
    else Except.ok (supply, decimals)
  else Except.ok (0, 0)

/-! ### Helper lemmas for the verification engine -/

theorem status_incomplete_iff (s : VerifyInput) :
    ((performVerification s).1.status = "incomplete") ↔ s.hasImage = false := by
  obtain ⟨hi, iio, hm, mio, hfc, fr⟩ := s
  cases hi <;> cases iio <;> cases hm <;> cases mio <;> cases hfc <;>
    simp [performVerification] <;> split_ifs <;> simp_all

theorem status_error_iff (s : VerifyInput) :
    ((performVerification s).1.status = "error") ↔
      s.hasImage = true ∧
        (s.imageHashIO = none ∨ s.hasMetadata = true ∧ s.metadataHashIO = none) := by
  obtain ⟨hi, iio, hm, mio, hfc, fr⟩ := s
  cases hi <;> cases iio <;> cases hm <;> cases mio <;> cases hfc <;>
    simp [performVerification] <;> split_ifs <;> simp_all

theorem status_auth_tamper (s : VerifyInput) (hbase : s.hashFileContent ≠ some "")
    (h : String) (hi : s.hasImage = true) (hio : s.imageHashIO = some h)
    (hmio : s.hasMetadata = true → s.metadataHashIO ≠ none) :
    (((performVerification s).1.status = "authentic" ↔
        (s.hashFileContent = none ∨ s.hashFileContent = some h)) ∧
     ((performVerification s).1.status = "tampered" ↔
        (∃ b, s.hashFileContent = some b ∧ b ≠ h))) := by
  obtain ⟨hasI, iio, hm, mio, hfc, fr⟩ := s
  subst hi hio
  cases hm <;> cases mio <;> cases hfc <;>
    simp_all [performVerification] <;>
    exact ⟨eq_comm, not_congr eq_comm⟩

/-- C1: for every NFT directory state, performVerification derives the
result status by the exact precedence of the specification: incomplete
when no image file is found; error when any digest computation fails due
to I O; otherwise authentic when the recomputed media digest equals the
stored baseline or no baseline existed; tampered exactly when a baseline
existed and differs.  The hypothesis states that the stored hash file, when
present, is non-empty, which holds for every hash file the system itself
writes, since computeFileHash always returns a sha256-prefixed string. -/
theorem C1_verify_status_precedence (s : VerifyInput)
    (hbase : s.hashFileContent ≠ some "") :
    ((performVerification s).1.status = "incomplete" ↔ s.hasImage = false) ∧
    ((performVerification s).1.status = "error" ↔
      s.hasImage = true ∧
        (s.imageHashIO = none ∨ s.hasMetadata = true ∧ s.metadataHashIO = none)) ∧
    (∀ h, s.hasImage = true → s.imageHashIO = some h →
      (s.hasMetadata = true → s.metadataHashIO ≠ none) →
      (((performVerification s).1.status = "authentic" ↔
          (s.hashFileContent = none ∨ s.hashFileContent = some h)) ∧
       ((performVerification s).1.status = "tampered" ↔
          (∃ b, s.hashFileContent = some b ∧ b ≠ h)))) :=
  ⟨status_incomplete_iff s, status_error_iff s,
    fun h hi hio hmio => status_auth_tamper s hbase h hi hio hmio⟩

def c1WitnessInput : VerifyInput :=
  { hasImage := true, imageHashIO := some "sha256:aa", hasMetadata := true,
    metadataHashIO := some "sha256:bb", hashFileContent := some "sha256:aa",
    forceRecompute := false }

/-- Witness for C1: a fully concrete state with an intact baseline is
classified authentic. -/
theorem C1_verify_status_precedence_witness :
    (performVerification c1WitnessInput).1.status = "authentic" := by
  have h := C1_verify_status_precedence c1WitnessInput (by decide)
  exact (h.2.2 "sha256:aa" (by decide) (by decide) (by decide)).1.mpr (by decide)

/-- State reaching the tampered status under force-recompute: the stored
baseline differs from the recomputed digest and forceRecompute is set. -/
def c10TamperForceInput : VerifyInput :=
  { hasImage := true, imageHashIO := some "sha256:bb", hasMetadata := false,
    metadataHashIO := none, hashFileContent := some "sha256:aa",
    forceRecompute := true }

/-- C10 counterexample: a verification that returns tampered can overwrite
the stored baseline, namely when force-recompute is requested, so the
original trusted digest does not survive tamper detection in that case. -/
theorem C10_counterexample :
    (performVerification c10TamperForceInput).1.status = "tampered" ∧
    (performVerification c10TamperForceInput).2 = some "sha256:bb" := by
  decide

/-- C10 (amended): performVerification writes hash.txt only when no
baseline could be read or when force-recompute is requested; a tampered
verification without force-recompute leaves the baseline unchanged.  The
hypothesis excludes an empty stored hash file, which the system never
writes. -/
theorem C10_baseline_overwrite_guard (s : VerifyInput)
    (hbase : s.hashFileContent ≠ some "") :
    ((performVerification s).2 ≠ none →
        s.hashFileContent = none ∨ s.forceRecompute = true) ∧
    ((performVerification s).1.status = "tampered" → s.forceRecompute = false →
        (performVerification s).2 = none) := by
  obtain ⟨hi, iio, hm, mio, hfc, fr⟩ := s
  cases hi <;> cases iio <;> cases hm <;> cases mio <;> cases hfc <;> cases fr <;>
    simp_all [performVerification]

def c10WitnessInput : VerifyInput :=
  { hasImage := true, imageHashIO := some "sha256:bb", hasMetadata := false,
    metadataHashIO := none, hashFileContent := some "sha256:aa",
    forceRecompute := false }

/-- Witness for the amended C10: with a differing baseline and no
force-recompute, nothing is written. -/
theorem C10_baseline_overwrite_guard_witness :
    (performVerification c10WitnessInput).2 = none := by
  have h := C10_baseline_overwrite_guard c10WitnessInput (by decide)
  exact h.2 (by decide) (by decide)

/-- C6 counterexample: a mint account buffer shorter than 44 bytes skips
the validation block entirely, so FetchNFTInfo proceeds with the zero
values supply 0 and decimals 0 - a silent default with supply different
from 1, where the claim requires a validation error. -/
theorem C6_counterexample :
    parseMintData [] = Except.ok (0, 0) ∧ (0 : Nat) ≠ 1 :=
  ⟨rfl, by decide⟩

/-- C6 (amended): the decimals byte is validated only when the mint data
is at least 44 bytes long; the byte at index 44 (0 when the buffer has
exactly 44 bytes) must be 0, otherwise FetchNFTInfo fails with the
decimals validation error.  Supply is never read from the account: it is
hard-coded to 1 when the data reaches 44 bytes and remains the zero value
0 otherwise. -/
theorem C6_mint_validation_amended (data : List Nat) :
    (data.length < 44 → parseMintData data = Except.ok (0, 0)) ∧
    (44 ≤ data.length → data.getD 44 0 = 0 → parseMintData data = Except.ok (1, 0)) ∧
    (44 ≤ data.length → data.getD 44 0 ≠ 0 →
      parseMintData data = Except.error
        "this token has nonzero decimals - NFTs should have 0 decimals") := by
  have hgd : ¬ 44 < data.length → data.getD 44 0 = 0 := fun hn =>
    List.getD_eq_default _ _ (by omega)
  simp only [parseMintData]
  refine ⟨fun h => ?_, fun h hd => ?_, fun h hd => ?_⟩ <;>
    split_ifs <;> simp_all <;> omega

/-- Witness for the amended C6: a 45-byte buffer with decimals byte 0
passes validation with the hard-coded supply 1. -/
theorem C6_mint_validation_amended_witness :
    parseMintData (List.replicate 45 0) = Except.ok (1, 0) :=
  (C6_mint_validation_amended (List.replicate 45 0)).2.1 (by decide) (by decide)

/-! ## Metaplex metadata account parsing
(Fetcher.parseMetadataURI, internal/solana/config.go lines 366 to 470).
Byte buffers are lists of Nat; every entry of a real buffer is below 256.
The Go parser prints progress but its result depends only on the bytes. -/

/-- Field attribution for decode errors. -/
inductive MetaField where
  | header
  | name
  | symbol
  | uri
deriving Repr, DecidableEq

/-- The error cases of parseMetadataURI, one constructor per distinct
return site of the Go function, carrying the data the message formats. -/
inductive MetaParseError where
  | dataTooShort (n : Nat)
  | notValidAccount (key : Nat)
  | shortForNameLen
  | nameTooLarge (n : Nat)
  | shortForName
  | shortForSymbolLen
  | symbolTooLarge (n : Nat)
  | shortForSymbol
  | shortForURILen
  | uriTooLarge (n : Nat)
  | shortForURI
  | uriTooShort (u : List Nat)
  | uriNotRecognized (u : List Nat)
deriving Repr, DecidableEq

/-- Which field a truncation-class error blames, none for errors of other
classes.  The under-100-bytes error blames the fixed header. -/
def MetaParseError.truncatedField : MetaParseError → Option MetaField
  | .dataTooShort _ => some .header
  | .shortForNameLen => some .name
  | .shortForName => some .name
  | .shortForSymbolLen => some .symbol
  | .shortForSymbol => some .symbol
  | .shortForURILen => some .uri
  | .shortForURI => some .uri
  | _ => none

/-- Field and offending length of a length-overflow error, none for
errors of other classes. -/
def MetaParseError.overflowInfo : MetaParseError → Option (MetaField × Nat)
  | .nameTooLarge n => some (.name, n)
  | .symbolTooLarge n => some (.symbol, n)
  | .uriTooLarge n => some (.uri, n)
  | _ => none

/-- Little-endian u32 read at an offset, as the Go shift-or expression.
Real buffers have byte entries below 256, so the Nat sum never reaches
2 to the 32 and no modular reduction is needed. -/
def readLE32 (data : List Nat) (off : Nat) : Nat :=
  data.getD off 0 + data.getD (off + 1) 0 * 256 +
    data.getD (off + 2) 0 * 65536 + data.getD (off + 3) 0 * 16777216

/-- ASCII bytes that Go unicode.IsSpace accepts; the model covers the
ASCII range, which is what on-chain padding uses. -/
def isSpaceByte (b : Nat) : Bool :=
  b == 9 || b == 10 || b == 11 || b == 12 || b == 13 || b == 32

/-- strings.TrimRight of NUL bytes. -/
def trimRightNul (u : List Nat) : List Nat :=
  (u.reverse.dropWhile (· == 0)).reverse

/-- strings.TrimSpace: removes leading and trailing whitespace. -/
def trimSpaceBytes (u : List Nat) : List Nat :=
  ((u.dropWhile isSpaceByte).reverse.dropWhile isSpaceByte).reverse

/-- The URI cleanup of parseMetadataURI: trailing NULs removed, then
surrounding whitespace. -/
def trimURI (u : List Nat) : List Nat :=
  trimSpaceBytes (trimRightNul u)

/-- The Go acceptance test on the trimmed URI: a prefix comparison with
http (bytes of h t t p), ar, or ipfs, evaluated only when the URI has at
least 5 bytes. -/
def uriSchemeAccepted (u : List Nat) : Bool :=
  u.take 4 == [104, 116, 116, 112] || u.take 2 == [97, 114] ||
    u.take 4 == [105, 112, 102, 115]

/-- URI block of parseMetadataURI: length-prefix bounds check, cap check,
field bounds check, extraction, trim, minimum length, scheme prefix test.
The off argument is the Go offset variable when the block starts. -/
def parseURIStage (data : List Nat) (off : Nat) : Except MetaParseError (List Nat) :=
  if data.length < off + 4 then Except.error .shortForURILen
  else
    let uriLength := readLE32 data off
    if 1000 < uriLength then Except.error (.uriTooLarge uriLength)
    else if data.length < off + 4 + uriLength then Except.error .shortForURI
    else
      let uri := trimURI ((data.drop (off + 4)).take uriLength)
      if uri.length < 5 then Except.error (.uriTooShort uri)
      else if uriSchemeAccepted uri then Except.ok uri
      else Except.error (.uriNotRecognized uri)

/-- Symbol block of parseMetadataURI, continuing into the URI block. -/
def parseSymbolStage (data : List Nat) (off : Nat) : Except MetaParseError (List Nat) :=
  if data.length < off + 4 then Except.error .shortForSymbolLen
  else
    let symbolLength := readLE32 data off
    if 200 < symbolLength then Except.error (.symbolTooLarge symbolLength)
    else if data.length < off + 4 + symbolLength then Except.error .shortForSymbol
    else parseURIStage data (off + 4 + symbolLength)

/-- Name block of parseMetadataURI, continuing into the symbol block. -/
def parseNameStage (data : List Nat) (off : Nat) : Except MetaParseError (List Nat) :=
  if data.length < off + 4 then Except.error .shortForNameLen
  else
    let nameLength := readLE32 data off
    if 200 < nameLength then Except.error (.nameTooLarge nameLength)
    else if data.length < off + 4 + nameLength then Except.error .shortForName
    else parseSymbolStage data (off + 4 + nameLength)

/-- Embedding of parseMetadataURI.  The offset starts at 65 after the
one-byte key and the two skipped 32-byte keys, exactly as in the Go
function; each stage advances it by 4 plus the consumed field length. -/
def parseMetadataURI (data : List Nat) : Except MetaParseError (List Nat) :=
  if data.length < 100 then Except.error (.dataTooShort data.length)
  else if data.getD 0 0 ≠ 4 then Except.error (.notValidAccount (data.getD 0 0))
  else parseNameStage data 65

/-! ### Stage lemmas -/

theorem parseURIStage_lenTrunc (data : List Nat) (off : Nat)
    (h : data.length < off + 4) :
    parseURIStage data off = .error .shortForURILen := by
  simp only [parseURIStage]
  split_ifs <;> first | rfl | omega

theorem parseURIStage_overflow (data : List Nat) (off : Nat)
    (h4 : off + 4 ≤ data.length) (h : 1000 < readLE32 data off) :
    parseURIStage data off = .error (.uriTooLarge (readLE32 data off)) := by
  simp only [parseURIStage]
  split_ifs <;> first | rfl | omega

theorem parseURIStage_trunc (data : List Nat) (off : Nat)
    (h4 : off + 4 ≤ data.length) (hcap : readLE32 data off ≤ 1000)
    (h : data.length < off + 4 + readLE32 data off) :
    parseURIStage data off = .error .shortForURI := by
  simp only [parseURIStage]
  split_ifs <;> first | rfl | omega

theorem parseURIStage_fits (data : List Nat) (off : Nat)
    (h4 : off + 4 ≤ data.length) (hcap : readLE32 data off ≤ 1000)
    (hfit : off + 4 + readLE32 data off ≤ data.length) :
    parseURIStage data off =
      (let t := trimURI ((data.drop (off + 4)).take (readLE32 data off))
       if t.length < 5 then Except.error (.uriTooShort t)
       else if uriSchemeAccepted t then Except.ok t
       else Except.error (.uriNotRecognized t)) := by
  simp only [parseURIStage]
  split_ifs <;> first | rfl | omega

theorem parseSymbolStage_lenTrunc (data : List Nat) (off : Nat)
    (h : data.length < off + 4) :
    parseSymbolStage data off = .error .shortForSymbolLen := by
  simp only [parseSymbolStage]
  split_ifs <;> first | rfl | omega

theorem parseSymbolStage_overflow (data : List Nat) (off : Nat)
    (h4 : off + 4 ≤ data.length) (h : 200 < readLE32 data off) :
    parseSymbolStage data off = .error (.symbolTooLarge (readLE32 data off)) := by
  simp only [parseSymbolStage]
  split_ifs <;> first | rfl | omega

theorem parseSymbolStage_trunc (data : List Nat) (off : Nat)
    (h4 : off + 4 ≤ data.length) (hcap : readLE32 data off ≤ 200)
    (h : data.length < off + 4 + readLE32 data off) :
    parseSymbolStage data off = .error .shortForSymbol := by
  simp only [parseSymbolStage]
  split_ifs <;> first | rfl | omega

theorem parseSymbolStage_fits (data : List Nat) (off : Nat)
    (h4 : off + 4 ≤ data.length) (hcap : readLE32 data off ≤ 200)
    (hfit : off + 4 + readLE32 data off ≤ data.length) :
    parseSymbolStage data off = parseURIStage data (off + 4 + readLE32 data off) := by
  simp only [parseSymbolStage]
  split_ifs <;> first | rfl | omega

theorem parseNameStage_lenTrunc (data : List Nat) (off : Nat)
    (h : data.length < off + 4) :
    parseNameStage data off = .error .shortForNameLen := by
  simp only [parseNameStage]
  split_ifs <;> first | rfl | omega

theorem parseNameStage_overflow (data : List Nat) (off : Nat)
    (h4 : off + 4 ≤ data.length) (h : 200 < readLE32 data off) :
    parseNameStage data off = .error (.nameTooLarge (readLE32 data off)) := by
  simp only [parseNameStage]
  split_ifs <;> first | rfl | omega

theorem parseNameStage_trunc (data : List Nat) (off : Nat)
    (h4 : off + 4 ≤ data.length) (hcap : readLE32 data off ≤ 200)
    (h : data.length < off + 4 + readLE32 data off) :
    parseNameStage data off = .error .shortForName := by
  simp only [parseNameStage]
  split_ifs <;> first | rfl | omega

theorem parseNameStage_fits (data : List Nat) (off : Nat)
    (h4 : off + 4 ≤ data.length) (hcap : readLE32 data off ≤ 200)
    (hfit : off + 4 + readLE32 data off ≤ data.length) :
    parseNameStage data off = parseSymbolStage data (off + 4 + readLE32 data off) := by
  simp only [parseNameStage]
  split_ifs <;> first | rfl | omega

theorem parse_header_too_short (data : List Nat) (h : data.length < 100) :
    parseMetadataURI data = .error (.dataTooShort data.length) := by
  simp only [parseMetadataURI]
  split_ifs <;> first | rfl | omega

theorem parse_bad_discriminant (data : List Nat) (h : 100 ≤ data.length)
    (hk : data.getD 0 0 ≠ 4) :
    parseMetadataURI data = .error (.notValidAccount (data.getD 0 0)) := by
  simp only [parseMetadataURI]
  rw [if_neg (by omega), if_pos hk]

theorem parse_to_name (data : List Nat) (h : 100 ≤ data.length)
    (hk : data.getD 0 0 = 4) :
    parseMetadataURI data = parseNameStage data 65 := by
  simp only [parseMetadataURI]
  rw [if_neg (by omega), if_neg (not_not_intro hk)]

theorem parse_to_symbol (data : List Nat) (h : 100 ≤ data.length)
    (hk : data.getD 0 0 = 4) (hn : readLE32 data 65 ≤ 200)
    (hnf : 69 + readLE32 data 65 ≤ data.length) :
    parseMetadataURI data = parseSymbolStage data (69 + readLE32 data 65) := by
  rw [parse_to_name data h hk, parseNameStage_fits data 65 (by omega) hn (by omega)]

theorem parse_to_uri (data : List Nat) (h : 100 ≤ data.length)
    (hk : data.getD 0 0 = 4) (hn : readLE32 data 65 ≤ 200)
    (hnf : 69 + readLE32 data 65 ≤ data.length)
    (hsl : 73 + readLE32 data 65 ≤ data.length)
    (hs : readLE32 data (69 + readLE32 data 65) ≤ 200)
    (hsf : 73 + readLE32 data 65 + readLE32 data (69 + readLE32 data 65) ≤ data.length) :
    parseMetadataURI data =
      parseURIStage data (73 + readLE32 data 65 + readLE32 data (69 + readLE32 data 65)) := by
  rw [parse_to_symbol data h hk hn hnf,
    parseSymbolStage_fits data (69 + readLE32 data 65) (by omega) hs (by omega)]
  congr 1 <;> omega

/-- The final URI-field computation of parseMetadataURI, written with the
absolute offsets it uses once name and symbol have been consumed: the URI
length prefix sits at 73 plus the two field lengths, the URI bytes at 77
plus them; the field is trimmed, required to have at least 5 bytes, and
prefix-tested. -/
def uriFieldResult (data : List Nat) : Except MetaParseError (List Nat) :=
  let t := trimURI ((data.drop
      (77 + readLE32 data 65 + readLE32 data (69 + readLE32 data 65))).take
      (readLE32 data (73 + readLE32 data 65 + readLE32 data (69 + readLE32 data 65))))
  if t.length < 5 then Except.error (.uriTooShort t)
  else if uriSchemeAccepted t then Except.ok t
  else Except.error (.uriNotRecognized t)

theorem parse_reaches_uri (data : List Nat) (h : 100 ≤ data.length)
    (hk : data.getD 0 0 = 4) (hn : readLE32 data 65 ≤ 200)
    (hnf : 69 + readLE32 data 65 ≤ data.length)
    (hsl : 73 + readLE32 data 65 ≤ data.length)
    (hs : readLE32 data (69 + readLE32 data 65) ≤ 200)
    (hsf : 73 + readLE32 data 65 + readLE32 data (69 + readLE32 data 65) ≤ data.length)
    (hul : 77 + readLE32 data 65 + readLE32 data (69 + readLE32 data 65) ≤ data.length)
    (hu : readLE32 data (73 + readLE32 data 65 + readLE32 data (69 + readLE32 data 65)) ≤ 1000)
    (huf : 77 + readLE32 data 65 + readLE32 data (69 + readLE32 data 65) +
      readLE32 data (73 + readLE32 data 65 + readLE32 data (69 + readLE32 data 65)) ≤
        data.length) :
    parseMetadataURI data = uriFieldResult data := by
  rw [parse_to_uri data h hk hn hnf hsl hs hsf,
    parseURIStage_fits data
      (73 + readLE32 data 65 + readLE32 data (69 + readLE32 data 65))
      (by omega) hu (by omega)]
  have e : 73 + readLE32 data 65 + readLE32 data (69 + readLE32 data 65) + 4 =
      77 + readLE32 data 65 + readLE32 data (69 + readLE32 data 65) := by omega
  rw [e]
  rfl

theorem parseURIStage_ok_shape (data : List Nat) (off : Nat) (u : List Nat)
    (h : parseURIStage data off = .ok u) :
    5 ≤ u.length ∧ uriSchemeAccepted u = true := by
  simp only [parseURIStage] at h
  split_ifs at h <;> simp_all <;> omega

theorem parseSymbolStage_ok_shape (data : List Nat) (off : Nat) (u : List Nat)
    (h : parseSymbolStage data off = .ok u) :
    5 ≤ u.length ∧ uriSchemeAccepted u = true := by
  simp only [parseSymbolStage] at h
  split_ifs at h <;> first | exact parseURIStage_ok_shape _ _ _ h | simp_all

theorem parseNameStage_ok_shape (data : List Nat) (off : Nat) (u : List Nat)
    (h : parseNameStage data off = .ok u) :
    5 ≤ u.length ∧ uriSchemeAccepted u = true := by
  simp only [parseNameStage] at h
  split_ifs at h <;> first | exact parseSymbolStage_ok_shape _ _ _ h | simp_all

theorem parse_ok_shape (data : List Nat) (u : List Nat)
    (h : parseMetadataURI data = .ok u) :
    100 ≤ data.length ∧ data.getD 0 0 = 4 ∧ 5 ≤ u.length ∧
      uriSchemeAccepted u = true := by
  simp only [parseMetadataURI] at h
  split_ifs at h with h1 h2 <;>
    first
    | exact absurd h (by simp)
    | exact ⟨by omega, by omega, (parseNameStage_ok_shape data 65 u h).1,
        (parseNameStage_ok_shape data 65 u h).2⟩

/-- C2: decoding the metadata account succeeds only with the expected
discriminant byte 4; any buffer below the 100-byte minimum fails with the
header-truncation error; a wrong discriminant fails with the discriminant
error; the three fields name, symbol, URI are read in sequence after the
65-byte header (one key byte plus two skipped 32-byte keys), each as a
4-byte little-endian length prefix at the accumulated offset followed by
that many bytes; a name or symbol length over 200 or a URI length over
1000 fails with a length-overflow error carrying the field and length;
insufficient remaining bytes fail with a truncation error identifying the
field; a successful decode returns a URI of at least 5 bytes, and the
total function never panics or returns a silent zero value. -/
theorem C2_metadata_account_decode (data : List Nat) :
    (∀ u, parseMetadataURI data = .ok u →
        100 ≤ data.length ∧ data.getD 0 0 = 4 ∧ 5 ≤ u.length) ∧
    (data.length < 100 →
        parseMetadataURI data = .error (.dataTooShort data.length) ∧
        (MetaParseError.dataTooShort data.length).truncatedField = some .header) ∧
    (100 ≤ data.length → data.getD 0 0 ≠ 4 →
        parseMetadataURI data = .error (.notValidAccount (data.getD 0 0))) ∧
    (100 ≤ data.length → data.getD 0 0 = 4 →
      (200 < readLE32 data 65 →
        parseMetadataURI data = .error (.nameTooLarge (readLE32 data 65)) ∧
        (MetaParseError.nameTooLarge (readLE32 data 65)).overflowInfo =
          some (.name, readLE32 data 65)) ∧
      (readLE32 data 65 ≤ 200 → data.length < 69 + readLE32 data 65 →
        parseMetadataURI data = .error .shortForName ∧
        (MetaParseError.shortForName).truncatedField = some .name) ∧
      (readLE32 data 65 ≤ 200 → 69 + readLE32 data 65 ≤ data.length →
        (data.length < 73 + readLE32 data 65 →
          parseMetadataURI data = .error .shortForSymbolLen ∧
          (MetaParseError.shortForSymbolLen).truncatedField = some .symbol) ∧
        (73 + readLE32 data 65 ≤ data.length →
          (200 < readLE32 data (69 + readLE32 data 65) →
            parseMetadataURI data =
              .error (.symbolTooLarge (readLE32 data (69 + readLE32 data 65))) ∧
            (MetaParseError.symbolTooLarge
                (readLE32 data (69 + readLE32 data 65))).overflowInfo =
              some (.symbol, readLE32 data (69 + readLE32 data 65))) ∧
          (readLE32 data (69 + readLE32 data 65) ≤ 200 →
            (data.length <
                73 + readLE32 data 65 + readLE32 data (69 + readLE32 data 65) →
              parseMetadataURI data = .error .shortForSymbol ∧
              (MetaParseError.shortForSymbol).truncatedField = some .symbol) ∧
            (73 + readLE32 data 65 + readLE32 data (69 + readLE32 data 65) ≤
                data.length →
              (data.length <
                  77 + readLE32 data 65 + readLE32 data (69 + readLE32 data 65) →
                parseMetadataURI data = .error .shortForURILen ∧
                (MetaParseError.shortForURILen).truncatedField = some .uri) ∧
              (77 + readLE32 data 65 + readLE32 data (69 + readLE32 data 65) ≤
                  data.length →
                (1000 < readLE32 data
                    (73 + readLE32 data 65 + readLE32 data (69 + readLE32 data 65)) →
                  parseMetadataURI data = .error (.uriTooLarge (readLE32 data
                    (73 + readLE32 data 65 +
                      readLE32 data (69 + readLE32 data 65)))) ∧
                  (MetaParseError.uriTooLarge (readLE32 data
                      (73 + readLE32 data 65 +
                        readLE32 data (69 + readLE32 data 65)))).overflowInfo =
                    some (.uri, readLE32 data
                      (73 + readLE32 data 65 +
                        readLE32 data (69 + readLE32 data 65)))) ∧
                (readLE32 data
                    (73 + readLE32 data 65 + readLE32 data (69 + readLE32 data 65)) ≤
                      1000 →
                  (data.length <
                      77 + readLE32 data 65 + readLE32 data (69 + readLE32 data 65) +
                        readLE32 data (73 + readLE32 data 65 +
                          readLE32 data (69 + readLE32 data 65)) →
                    parseMetadataURI data = .error .shortForURI ∧
                    (MetaParseError.shortForURI).truncatedField = some .uri) ∧
                  (77 + readLE32 data 65 + readLE32 data (69 + readLE32 data 65) +
                      readLE32 data (73 + readLE32 data 65 +
                        readLE32 data (69 + readLE32 data 65)) ≤ data.length →
                    parseMetadataURI data = uriFieldResult data)))))))) := by
  refine ⟨fun u hu => ?_, fun h => ⟨parse_header_too_short data h, rfl⟩,
    fun h hk => parse_bad_discriminant data h hk,
    fun h hk => ⟨fun hn => ?_, fun hn hshort => ?_, fun hn hnf => ⟨fun hshort => ?_,
      fun hsl => ⟨fun hs => ?_, fun hs => ⟨fun hshort => ?_,
        fun hsf => ⟨fun hshort => ?_, fun hul => ⟨fun hu2 => ?_,
          fun hu2 => ⟨fun hshort => ?_, fun huf => ?_⟩⟩⟩⟩⟩⟩⟩⟩
  · have hs := parse_ok_shape data u hu
    exact ⟨hs.1, hs.2.1, hs.2.2.1⟩
  · rw [parse_to_name data h hk]
    exact ⟨parseNameStage_overflow data 65 (by omega) hn, rfl⟩
  · rw [parse_to_name data h hk]
    exact ⟨parseNameStage_trunc data 65 (by omega) hn (by omega), rfl⟩
  · rw [parse_to_symbol data h hk hn hnf]
    exact ⟨parseSymbolStage_lenTrunc data (69 + readLE32 data 65) (by omega), rfl⟩
  · rw [parse_to_symbol data h hk hn hnf]
    exact ⟨parseSymbolStage_overflow data (69 + readLE32 data 65) (by omega) hs, rfl⟩
  · rw [parse_to_symbol data h hk hn hnf]
    exact ⟨parseSymbolStage_trunc data (69 + readLE32 data 65) (by omega) hs (by omega),
      rfl⟩
  · rw [parse_to_uri data h hk hn hnf hsl hs hsf]
    exact ⟨parseURIStage_lenTrunc data _ (by omega), rfl⟩
  · rw [parse_to_uri data h hk hn hnf hsl hs hsf]
    exact ⟨parseURIStage_overflow data _ (by omega) hu2, rfl⟩
  · rw [parse_to_uri data h hk hn hnf hsl hs hsf]
    exact ⟨parseURIStage_trunc data _ (by omega) hu2 (by omega), rfl⟩
  · exact parse_reaches_uri data h hk hn hnf hsl hs hsf hul hu2 huf

/-- A valid buffer: key 4, 64 filler bytes, empty name, empty symbol, a
23-byte URI field holding an ipfs URI padded with 8 NULs, 100 bytes in
total. -/
def c2URI : List Nat :=
  [105, 112, 102, 115, 58, 47, 47, 97, 98, 99, 100, 101, 102, 103, 104]

def c2Data : List Nat :=
  4 :: (List.replicate 64 9 ++ ([0, 0, 0, 0] ++ ([0, 0, 0, 0] ++
    ([23, 0, 0, 0] ++ (c2URI ++ List.replicate 8 0)))))

/-- Witness for C2: the sample buffer decodes to its encoded ipfs URI with
the NUL padding stripped. -/
theorem C2_metadata_account_decode_witness :
    parseMetadataURI c2Data = Except.ok c2URI := by
  have h := ((((((((C2_metadata_account_decode c2Data).2.2.2 (by decide)
    (by decide)).2.2 (by decide) (by decide)).2 (by decide)).2 (by decide)).2
    (by decide)).2 (by decide)).2 (by decide)).2 (by decide)
  rw [h]
  rfl

/-! ## C4: URI scheme validation -/

/-- Modelled from the words of the specification: the trimmed URI is
validated against an allow-list of schemes http, https, ar, ipfs, i.e. it
must begin with one of the scheme prefixes written as URI schemes
(bytes of http://, https://, ar://, ipfs://). -/
def specAllowedScheme (u : List Nat) : Bool :=
  u.take 7 == [104, 116, 116, 112, 58, 47, 47] ||
    u.take 8 == [104, 116, 116, 112, 115, 58, 47, 47] ||
    u.take 5 == [97, 114, 58, 47, 47] ||
    u.take 7 == [105, 112, 102, 115, 58, 47, 47]

/-- Every URI starting with one of the allow-list schemes also passes the
prefix test of the Go code. -/
theorem spec_scheme_implies_accepted (u : List Nat)
    (h : specAllowedScheme u = true) : uriSchemeAccepted u = true := by
  simp only [specAllowedScheme, Bool.or_eq_true, beq_iff_eq] at h
  simp only [uriSchemeAccepted, Bool.or_eq_true, beq_iff_eq]
  rcases h with ((h | h) | h) | h
  · left; left
    have ht : u.take 4 = (u.take 7).take 4 := by
      simp [List.take_take]
    rw [ht, h]
    rfl
  · left; left
    have ht : u.take 4 = (u.take 8).take 4 := by
      simp [List.take_take]
    rw [ht, h]
    rfl
  · left; right
    have ht : u.take 2 = (u.take 5).take 2 := by
      simp [List.take_take]
    rw [ht, h]
    rfl
  · right
    have ht : u.take 4 = (u.take 7).take 4 := by
      simp [List.take_take]
    rw [ht, h]
    rfl

/-- A 23-byte URI field starting with the two bytes a r but not carrying
any allow-list scheme (no colon or slashes follow). -/
def c4URI : List Nat := 97 :: 114 :: List.replicate 21 98

/-- A buffer identical in layout to c2Data but whose URI field is c4URI. -/
def c4Data : List Nat :=
  4 :: (List.replicate 64 9 ++ ([0, 0, 0, 0] ++ ([0, 0, 0, 0] ++
    ([23, 0, 0, 0] ++ c4URI))))

/-- C4 counterexample: the decode accepts a URI that is on no allow-list
scheme - the Go code only compares the byte prefixes http, ar and ipfs,
so a URI starting with the letters a r and no scheme separator passes. -/
theorem C4_counterexample :
    parseMetadataURI c4Data = Except.ok c4URI ∧
      specAllowedScheme c4URI = false := by
  constructor
  · rfl
  · rfl

/-- C4 (amended): the decoded URI field is trimmed of trailing NUL bytes
and surrounding whitespace and must then be at least 5 bytes long; the
decode succeeds exactly when the trimmed URI passes a byte-prefix test for
http, ar or ipfs, which accepts every allow-list scheme of the
specification but also any other URI beginning with those bytes; a URI
failing the prefix test is rejected with the not-recognized error. -/
theorem C4_uri_scheme_amended (data : List Nat) :
    (∀ u, parseMetadataURI data = .ok u →
        5 ≤ u.length ∧ uriSchemeAccepted u = true) ∧
    (∀ u, specAllowedScheme u = true → uriSchemeAccepted u = true) ∧
    (100 ≤ data.length → data.getD 0 0 = 4 → readLE32 data 65 ≤ 200 →
      69 + readLE32 data 65 ≤ data.length →
      73 + readLE32 data 65 ≤ data.length →
      readLE32 data (69 + readLE32 data 65) ≤ 200 →
      73 + readLE32 data 65 + readLE32 data (69 + readLE32 data 65) ≤ data.length →
      77 + readLE32 data 65 + readLE32 data (69 + readLE32 data 65) ≤ data.length →
      readLE32 data (73 + readLE32 data 65 + readLE32 data (69 + readLE32 data 65)) ≤
        1000 →
      77 + readLE32 data 65 + readLE32 data (69 + readLE32 data 65) +
        readLE32 data (73 + readLE32 data 65 + readLE32 data (69 + readLE32 data 65)) ≤
          data.length →
      parseMetadataURI data = uriFieldResult data) := by
  refine ⟨fun u hu => ?_, fun u hs => spec_scheme_implies_accepted u hs,
    fun h hk hn hnf hsl hs2 hsf hul hu2 huf =>
      parse_reaches_uri data h hk hn hnf hsl hs2 hsf hul hu2 huf⟩
  have hshape := parse_ok_shape data u hu
  exact ⟨hshape.2.2.1, hshape.2.2.2⟩

/-- A buffer whose 23-byte URI field holds an https URI padded with 5
NULs. -/
def c4WitnessURI : List Nat :=
  [104, 116, 116, 112, 115, 58, 47, 47, 120, 121, 46, 122, 47, 97, 98, 99, 100, 101]

def c4WitnessData : List Nat :=
  4 :: (List.replicate 64 9 ++ ([0, 0, 0, 0] ++ ([0, 0, 0, 0] ++
    ([23, 0, 0, 0] ++ (c4WitnessURI ++ List.replicate 5 0)))))

/-- Witness for the amended C4: an https URI with NUL padding decodes to
the trimmed URI. -/
theorem C4_uri_scheme_amended_witness :
    parseMetadataURI c4WitnessData = Except.ok c4WitnessURI := by
  have h := (C4_uri_scheme_amended c4WitnessData).2.2 (by decide) (by decide)
    (by decide) (by decide) (by decide) (by decide) (by decide) (by decide)
    (by decide) (by decide)
  rw [h]
  rfl

/-! ## Flexible off-chain metadata parsing
(Fetcher.parseFlexibleMetadata, internal/solana/config.go lines 530 to
657).  A decoded JSON document is modeled by the Json type; numbers are
modeled as integers, which covers every coercion the parser performs. -/

inductive Json where
  | null
  | bool (b : Bool)
  | num (n : Int)
  | str (s : String)
  | arr (xs : List Json)
  | obj (fields : List (String × Json))

/-- Lookup in a decoded JSON object as a Go map: a later duplicate key
overwrites an earlier one, as encoding/json does when filling a map. -/
def jlookup (fields : List (String × Json)) (k : String) : Option Json :=
  (fields.reverse.find? (fun e => e.1 == k)).map (·.2)

/-- The pattern rawData of key asserted to a Go string: the zero value
results when the key is absent or of another type. -/
def asStringField (fields : List (String × Json)) (k : String) : String :=
  match jlookup fields k with
  | some (.str s) => s
  | _ => ""

structure FlexAttribute where
  traitType : String
  value : Option Json

structure FlexCreator where
  address : String
  share : Int
  verified : Bool
deriving Repr, DecidableEq

structure FlexFile where
  uri : String
  fileType : String
deriving Repr, DecidableEq

structure FlexMetadata where
  name : String
  symbol : String
  description : String
  image : String
  animationURL : String
  externalURL : String
  attributes : List FlexAttribute
  creators : List FlexCreator
  files : List FlexFile
  category : String
  sellerFeeBasisPoints : Int
  collectionName : String
  collectionFamily : String

/-- The verified-field switch of parseFlexibleMetadata: bool as is, a
number is nonzero, the strings true or 1; every other JSON shape leaves
the Go zero value false. -/
def coerceVerified : Json → Bool
  | .bool v => v
  | .num v => v != 0
  | .str v => v == "true" || v == "1"
  | _ => false

/-- One creator entry: non-object entries are skipped entirely. -/
def parseCreator : Json → Option FlexCreator
  | .obj fields =>
      some { address := asStringField fields "address",
             share := (match jlookup fields "share" with
               | some (.num v) => v
               | _ => 0),
             verified := (match jlookup fields "verified" with
               | some v => coerceVerified v
               | none => false) }
  | _ => none

/-- One files entry: non-object entries are skipped. -/
def parseFile : Json → Option FlexFile
  | .obj fields =>
      some { uri := asStringField fields "uri",
             fileType := asStringField fields "type" }
  | _ => none

/-- One attributes entry: non-object entries are skipped; the value is
kept as any JSON shape when present. -/
def parseAttribute : Json → Option FlexAttribute
  | .obj fields =>
      some { traitType := asStringField fields "trait_type",
             value := jlookup fields "value" }
  | _ => none

/-- The key-by-key extraction of parseFlexibleMetadata over the decoded
map, leaving zero values where a key is absent or of an unexpected
shape. -/
def extractFlexible (fields : List (String × Json)) : FlexMetadata :=
    let attrs := match jlookup fields "attributes" with
      | some (.arr xs) => xs.filterMap parseAttribute
      | _ => []
    let props := jlookup fields "properties"
    let creators := match props with
      | some (.obj pf) =>
        (match jlookup pf "creators" with
         | some (.arr xs) => xs.filterMap parseCreator
         | _ => [])
      | _ => []
    let files := match props with
      | some (.obj pf) =>
        (match jlookup pf "files" with
         | some (.arr xs) => xs.filterMap parseFile
         | _ => [])
      | _ => []
    let category := match props with
      | some (.obj pf) => asStringField pf "category"
      | _ => ""
    let sellerFee := match jlookup fields "seller_fee_basis_points" with
      | some (.num v) => v
      | _ => 0
    let collName := match jlookup fields "collection" with
      | some (.obj cf) => asStringField cf "name"
      | _ => ""
    let collFamily := match jlookup fields "collection" with
      | some (.obj cf) => asStringField cf "family"
      | _ => ""
    { name := asStringField fields "name",
      symbol := asStringField fields "symbol",
      description := asStringField fields "description",
      image := asStringField fields "image",
      animationURL := asStringField fields "animation_url",
      externalURL := asStringField fields "external_url",
      attributes := attrs,
      creators := creators,
      files := files,
      category := category,
      sellerFeeBasisPoints := sellerFee,
      collectionName := collName,
      collectionFamily := collFamily }

/-- Embedding of parseFlexibleMetadata.  The Go function unmarshals the
body into a map, which succeeds for a JSON object and also for a JSON
null body, which encoding json decodes by setting the map to nil with no
error; every lookup in the nil map misses, so a null body yields
zero-valued metadata.  Any other document (array, string, number, bool)
fails the unmarshal into a map. -/
def parseFlexibleMetadata (body : Json) : Except String FlexMetadata :=
  match body with
  | .obj fields => Except.ok (extractFlexible fields)
  | .null => Except.ok (extractFlexible [])
  | _ => Except.error "failed to parse as JSON object"

/-- C5 counterexample: a JSON array is a valid JSON document, yet the
fallback parse fails on it, refuting the claim that the fallback fails
only when the body is not valid JSON at all. -/
theorem C5_counterexample :
    parseFlexibleMetadata (Json.arr []) =
      Except.error "failed to parse as JSON object" := rfl

/-- The result of the fallback parse on an object whose only content is a
single creator carrying a verified field. -/
def creatorOnlyResult (v : Json) : FlexMetadata :=
  { name := "", symbol := "", description := "", image := "",
    animationURL := "", externalURL := "", attributes := [],
    creators := [{ address := "", share := 0, verified := coerceVerified v }],
    files := [], category := "", sellerFeeBasisPoints := 0,
    collectionName := "", collectionFamily := "" }

/-- The zero-valued metadata a null body yields: every field at its Go
zero value. -/
def zeroFlexMetadata : FlexMetadata :=
  { name := "", symbol := "", description := "", image := "",
    animationURL := "", externalURL := "", attributes := [], creators := [],
    files := [], category := "", sellerFeeBasisPoints := 0,
    collectionName := "", collectionFamily := "" }

/-- C5 (amended): the fallback parse succeeds for every JSON object, and
also for a JSON null body, which yields zero-valued metadata with no
error because encoding json decodes null into a map by setting it to nil;
it fails exactly on every other JSON document (array, string, number,
bool), not only on invalid JSON.  Recognized keys are extracted
independently, with boolean-like verified values coerced from bool,
number (nonzero) or the strings true and 1, and any other shape coerced
to false. -/
theorem C5_flexible_parse_amended :
    (∀ fields, (parseFlexibleMetadata (Json.obj fields)).isOk = true) ∧
    (parseFlexibleMetadata Json.null = Except.ok zeroFlexMetadata) ∧
    (∀ j : Json, (∀ fields, j ≠ Json.obj fields) → j ≠ Json.null →
      parseFlexibleMetadata j = Except.error "failed to parse as JSON object") ∧
    (∀ v, parseFlexibleMetadata
        (Json.obj [("properties",
          Json.obj [("creators", Json.arr [Json.obj [("verified", v)]])])]) =
      Except.ok (creatorOnlyResult v)) ∧
    (∀ b, coerceVerified (.bool b) = b) ∧
    (∀ n : Int, coerceVerified (.num n) = (n != 0)) ∧
    (∀ s, coerceVerified (.str s) = (s == "true" || s == "1")) ∧
    coerceVerified .null = false ∧
    (∀ xs, coerceVerified (.arr xs) = false) ∧
    (∀ fields, coerceVerified (.obj fields) = false) := by
  refine ⟨fun fields => rfl, rfl, fun j hj hn => ?_, fun v => rfl, fun b => rfl,
    fun n => rfl, fun s => rfl, rfl, fun xs => rfl, fun fields => rfl⟩
  cases j with
  | obj fields => exact absurd rfl (hj fields)
  | null => exact absurd rfl hn
  | bool b => rfl
  | num n => rfl
  | str s => rfl
  | arr xs => rfl

/-- Witness for the amended C5: a creator whose verified field is the
number 1 is coerced to true. -/
theorem C5_flexible_parse_amended_witness :
    parseFlexibleMetadata
        (Json.obj [("properties",
          Json.obj [("creators", Json.arr [Json.obj [("verified", Json.num 1)]])])]) =
      Except.ok (creatorOnlyResult (Json.num 1)) :=
  C5_flexible_parse_amended.2.2.2.1 (Json.num 1)

/-! ## Media downloader (MediaDownloader.DownloadMedia) -/

/-- An HTTP response to a media request.  contentLength none models the
Go value resp.ContentLength = -1 (no length header); bodyLen is the
number of bytes the body yields; bodyReadFails models an I O error
surfacing from the body mid-copy. -/
structure MediaResponse where
  status : Nat
  contentLength : Option Nat
  bodyLen : Nat
  bodyReadFails : Bool
deriving Repr, DecidableEq

inductive DlError where
  | httpStatus (code : Nat)
  | tooLargeDeclared (n : Nat)
  | copyFailed
  | tooLargeStreamed
deriving Repr, DecidableEq

/-- Outcome of one DownloadMedia call: the returned value (bytes written
on success), whether os.Create ran at all, and the byte count of the file
left on disk, none when no file remains. -/
structure DlResult where
  result : Except DlError Nat
  fileCreated : Bool
  fileOnDisk : Option Nat

/-- The default cap set by NewMediaDownloader: 100 MiB. -/
def defaultMaxFileSize : Nat := 100 * 1024 * 1024

/-- Embedding of DownloadMedia (URL parsing, naming and type inference
omitted; they do not influence size enforcement).  The declared-length
check precedes file creation; the body is drained through a LimitedReader
with budget maxFileSize so at most maxFileSize bytes reach the file; on a
copy error the partial file is removed; the limit-hit check fires only
when no length header was present, and also removes the file. -/
def downloadMedia (maxFileSize : Nat) (r : MediaResponse) : DlResult :=
  if r.status ≠ 200 then
    { result := .error (.httpStatus r.status), fileCreated := false,
      fileOnDisk := none }
  else if (match r.contentLength with
           | some n => decide (maxFileSize < n)
           | none => false) then
    { result := .error (.tooLargeDeclared (r.contentLength.getD 0)),
      fileCreated := false, fileOnDisk := none }
  else if r.bodyReadFails then
    { result := .error .copyFailed, fileCreated := true, fileOnDisk := none }
  else
    let written := min r.bodyLen maxFileSize
    if maxFileSize - written = 0 ∧ r.contentLength = none then
      { result := .error .tooLargeStreamed, fileCreated := true,
        fileOnDisk := none }
    else
      { result := .ok written, fileCreated := true, fileOnDisk := some written }

/-- C3: a declared Content-Length over the cap is rejected before the
file is created; an over-cap body with no declared length is aborted at
the cap, the partial file is deleted and an error returned; and no
failure of any kind leaves a file on disk. -/
theorem C3_download_size_enforcement (maxFileSize : Nat) (r : MediaResponse) :
    (∀ n, r.contentLength = some n → maxFileSize < n → r.status = 200 →
      (downloadMedia maxFileSize r).result = .error (.tooLargeDeclared n) ∧
      (downloadMedia maxFileSize r).fileCreated = false) ∧
    (r.status = 200 → r.contentLength = none → r.bodyReadFails = false →
      maxFileSize < r.bodyLen →
      (downloadMedia maxFileSize r).result = .error .tooLargeStreamed ∧
      (downloadMedia maxFileSize r).fileCreated = true ∧
      (downloadMedia maxFileSize r).fileOnDisk = none) ∧
    (∀ e, (downloadMedia maxFileSize r).result = .error e →
      (downloadMedia maxFileSize r).fileOnDisk = none) := by
  obtain ⟨st, cl, bl, bf⟩ := r
  cases cl <;> cases bf <;> by_cases hst : st = 200 <;>
    simp_all [downloadMedia] <;> split_ifs <;> simp_all <;> omega

/-- A response with unknown length whose body is one byte over the
default cap. -/
def c3WitnessResponse : MediaResponse :=
  { status := 200, contentLength := none, bodyLen := defaultMaxFileSize + 1,
    bodyReadFails := false }

/-- Witness for C3: the over-cap unknown-length response leaves no file
on disk. -/
theorem C3_download_size_enforcement_witness :
    (downloadMedia defaultMaxFileSize c3WitnessResponse).fileOnDisk = none :=
  ((C3_download_size_enforcement defaultMaxFileSize c3WitnessResponse).2.1
    (by decide) (by decide) (by decide) (by decide)).2.2

/-! ## Backup store (internal/storage/filesystem.go)
Paths are lists of components; the Go code joins base58 wallet and mint
strings, which contain no separator, so filepath.Join is component
concatenation.  JSON files are modeled as storing their typed value:
encoding json round-trips the stored structs losslessly. -/

structure NFTMetadataLite where
  name : String
  symbol : String
  image : String
deriving Repr, DecidableEq, Inhabited

/-- The parts of fetcher.NFTInfo that SaveNFT consults: owner and mint
(for the path), the optional metadata (written separately when present)
and the media file list (manifest written when non-empty). -/
structure NFTInfoRec where
  mintAddress : String
  owner : String
  metadata : Option NFTMetadataLite
  mediaFiles : List String
deriving Repr, DecidableEq, Inhabited

/-- storage.StoredNFT: the embedded NFT info plus storage metadata.
Times are abstract ticks; lastCheck 0 is the Go zero time. -/
structure StoredNFTRec where
  nftInfo : NFTInfoRec
  storedAt : Nat
  updatedAt : Nat
  version : Nat
  checksum : String
  backupPath : List String
  verified : Bool
  lastCheck : Nat
deriving Repr, DecidableEq, Inhabited

inductive FileContent where
  | nftData (rec : StoredNFTRec)
  | metadataFile (m : NFTMetadataLite)
  | mediaManifest (files : List String)
deriving Repr, DecidableEq, Inhabited

/-- The file system: an association list from paths to file contents. -/
abbrev FS : Type := List (List String × FileContent)

/-- os.WriteFile: a full overwrite of the path. -/
def fsWrite (fs : FS) (p : List String) (c : FileContent) : FS :=
  (p, c) :: fs.filter (fun e => !(e.1 == p))

/-- os.ReadFile: the content at the path, none when absent. -/
def fsRead (fs : FS) (p : List String) : Option FileContent :=
  (fs.find? (fun e => e.1 == p)).map (·.2)

/-- buildNFTPath: baseDir/wallets/owner/nfts/mint. -/
def buildNFTPath (baseDir owner mint : String) : List String :=
  [baseDir, "wallets", owner, "nfts", mint]

def nftDataPath (baseDir owner mint : String) : List String :=
  buildNFTPath baseDir owner mint ++ ["nft_data.json"]

/-- json.Marshal of the embedded NFTInfo, modeled as a canonical encoding
of its fields.  Only the NFT data enters the checksum, never the storage
metadata. -/
def encodeNFTInfo (rec : NFTInfoRec) : String :=
  "mint=" ++ rec.mintAddress ++ ";owner=" ++ rec.owner ++ ";meta=" ++
    (match rec.metadata with
     | some m => m.name ++ "," ++ m.symbol ++ "," ++ m.image
     | none => "null") ++ ";media=" ++ String.intercalate "," rec.mediaFiles

/-- calculateChecksum: a hex digest of the marshaled NFT info.  The hash
function is a parameter; every theorem below holds for any choice,
covering the SHA-256 of the source. -/
def calculateChecksum (sha256hex : String → String) (rec : NFTInfoRec) : String :=
  sha256hex (encodeNFTInfo rec)

/-- Embedding of SaveNFT: builds the directory path from owner and mint,
constructs the stored record with version 1, fresh checksum, verified
false and zero last-check, writes nft_data.json, then metadata.json when
metadata is present, then the media manifest when media files exist. -/
def saveNFT (sha256hex : String → String) (baseDir : String) (fs : FS)
    (info : NFTInfoRec) (now : Nat) : FS :=
  let nftDir := buildNFTPath baseDir info.owner info.mintAddress
  let stored : StoredNFTRec :=
    { nftInfo := info, storedAt := now, updatedAt := now, version := 1,
      checksum := calculateChecksum sha256hex info, backupPath := nftDir,
      verified := false, lastCheck := 0 }
  let fs1 := fsWrite fs (nftDir ++ ["nft_data.json"]) (.nftData stored)
  let fs2 := match info.metadata with
    | some m => fsWrite fs1 (nftDir ++ ["metadata.json"]) (.metadataFile m)
    | none => fs1
  if info.mediaFiles.length > 0 then
    fsWrite fs2 (nftDir ++ ["media_manifest.json"]) (.mediaManifest info.mediaFiles)
  else fs2

inductive GetError where
  | notFound
  | decodeFailed
deriving Repr, DecidableEq

/-- Embedding of GetNFT: reads nft_data.json under the path built from
the queried owner and mint; a missing file is NotFound, distinct from a
file that does not decode as a stored record. -/
def getNFT (baseDir : String) (fs : FS) (owner mint : String) :
    Except GetError StoredNFTRec :=
  match fsRead fs (nftDataPath baseDir owner mint) with
  | some (.nftData r) => .ok r
  | some _ => .error .decodeFailed
  | none => .error .notFound

/-- The Walk filter of ListNFTs: any file named nft_data.json anywhere
under baseDir/wallets/owner/nfts. -/
def isWalletNFTData (baseDir owner : String) (p : List String) : Bool :=
  [baseDir, "wallets", owner, "nfts"].isPrefixOf p &&
    (p.getLast? == some "nft_data.json")

/-- Embedding of ListNFTs: collects every decodable nft_data.json under
the owner subtree, skipping files that do not decode. -/
def listNFTs (baseDir : String) (fs : FS) (owner : String) : List StoredNFTRec :=
  fs.filterMap (fun e =>
    if isWalletNFTData baseDir owner e.1 then
      match e.2 with
      | .nftData r => some r
      | _ => none
    else none)

/-! ### File-system lemmas -/

theorem find?_filter_of_imp {α : Type} (l : List α) (pred keep : α → Bool)
    (h : ∀ e, pred e = true → keep e = true) :
    (l.filter keep).find? pred = l.find? pred := by
  induction l with
  | nil => rfl
  | cons a l ih =>
    by_cases hk : keep a = true
    · rw [List.filter_cons_of_pos hk]
      by_cases hp : pred a = true
      · rw [List.find?_cons_of_pos _ hp, List.find?_cons_of_pos _ hp]
      · rw [List.find?_cons_of_neg _ (by simp_all),
          List.find?_cons_of_neg _ (by simp_all), ih]
    · have hp : pred a = false := by
        by_contra hc
        exact hk (h a (by simp_all))
      rw [List.filter_cons_of_neg (by simp_all),
        List.find?_cons_of_neg _ (by simp_all), ih]

theorem fsRead_write_same (fs : FS) (p : List String) (c : FileContent) :
    fsRead (fsWrite fs p c) p = some c := by
  simp [fsRead, fsWrite, List.find?_cons_of_pos]

theorem fsRead_write_other (fs : FS) (p q : List String) (c : FileContent)
    (h : q ≠ p) :
    fsRead (fsWrite fs p c) q = fsRead fs q := by
  unfold fsRead fsWrite
  rw [List.find?_cons_of_neg _ (by simp only [beq_iff_eq]; exact Ne.symm h),
    find?_filter_of_imp fs _ _ (fun e he => ?_)]
  simp only [beq_iff_eq] at he
  simp [he, h]

theorem nftFile_eq_iff (b w1 m1 f1 w2 m2 f2 : String) :
    (buildNFTPath b w1 m1 ++ [f1] = buildNFTPath b w2 m2 ++ [f2]) ↔
      (w1 = w2 ∧ m1 = m2 ∧ f1 = f2) := by
  simp [buildNFTPath]

theorem buildNFTPath_inj (b w1 m1 w2 m2 : String)
    (h : buildNFTPath b w1 m1 = buildNFTPath b w2 m2) : w1 = w2 ∧ m1 = m2 := by
  simp [buildNFTPath] at h
  exact h

theorem getNFT_after_save (sha : String → String) (baseDir : String) (fs : FS)
    (info : NFTInfoRec) (now : Nat) :
    getNFT baseDir (saveNFT sha baseDir fs info now) info.owner info.mintAddress =
      .ok { nftInfo := info, storedAt := now, updatedAt := now, version := 1,
            checksum := calculateChecksum sha info,
            backupPath := buildNFTPath baseDir info.owner info.mintAddress,
            verified := false, lastCheck := 0 } := by
  have hdm : (buildNFTPath baseDir info.owner info.mintAddress ++ ["nft_data.json"]) ≠
      (buildNFTPath baseDir info.owner info.mintAddress ++ ["metadata.json"]) := by
    rw [Ne, nftFile_eq_iff]
    simp
  have hdn : (buildNFTPath baseDir info.owner info.mintAddress ++ ["nft_data.json"]) ≠
      (buildNFTPath baseDir info.owner info.mintAddress ++ ["media_manifest.json"]) := by
    rw [Ne, nftFile_eq_iff]
    simp
  unfold getNFT saveNFT
  cases hmo : info.metadata <;> split_ifs <;>
    simp [nftDataPath, fsRead_write_other, fsRead_write_same, hdm, hdn]

/-- C7: saveNFT followed by getNFT for the same owner and mint succeeds
and returns a record whose mint address, owner and metadata name are
identical to those of the saved input, for any prior store content, any
hash function and any save time. -/
theorem C7_save_get_roundtrip (sha256hex : String → String) (baseDir : String)
    (fs : FS) (info : NFTInfoRec) (now : Nat) :
    ∃ st, getNFT baseDir (saveNFT sha256hex baseDir fs info now)
        info.owner info.mintAddress = .ok st ∧
      st.nftInfo.mintAddress = info.mintAddress ∧
      st.nftInfo.owner = info.owner ∧
      st.nftInfo.metadata.map NFTMetadataLite.name =
        info.metadata.map NFTMetadataLite.name :=
  ⟨_, getNFT_after_save sha256hex baseDir fs info now, rfl, rfl, rfl⟩

/-- C9: every SaveNFT call, including a re-save over an existing record,
stores a record with version 1, verified false, the zero last-check time
and a checksum computed from the embedded NFT info alone; the stored
value does not depend on what the store held before, so prior
verification state is silently reset. -/
theorem C9_save_resets_storage_metadata (sha256hex : String → String)
    (baseDir : String) (fs : FS) (info : NFTInfoRec) (now : Nat) :
    getNFT baseDir (saveNFT sha256hex baseDir fs info now)
        info.owner info.mintAddress =
      .ok { nftInfo := info, storedAt := now, updatedAt := now, version := 1,
            checksum := sha256hex (encodeNFTInfo info),
            backupPath := buildNFTPath baseDir info.owner info.mintAddress,
            verified := false, lastCheck := 0 } :=
  getNFT_after_save sha256hex baseDir fs info now

/-! ### Counting lemmas for ListNFTs -/

theorem filterMap_filter_of_none {α β : Type} (l : List α) (f : α → Option β)
    (keep : α → Bool) (h : ∀ e, keep e = false → f e = none) :
    (l.filter keep).filterMap f = l.filterMap f := by
  induction l with
  | nil => rfl
  | cons a l ih =>
    by_cases hk : keep a = true
    · rw [List.filter_cons_of_pos hk]
      cases hfa : f a with
      | none => rw [List.filterMap_cons_none hfa, List.filterMap_cons_none hfa, ih]
      | some b => rw [List.filterMap_cons_some hfa, List.filterMap_cons_some hfa, ih]
    · have hk0 : keep a = false := by simp_all
      rw [List.filter_cons_of_neg (by simp_all), List.filterMap_cons_none (h a hk0), ih]

theorem listNFTs_write_uncounted (baseDir w : String) (fs : FS) (p : List String)
    (c : FileContent) (hp : isWalletNFTData baseDir w p = false) :
    listNFTs baseDir (fsWrite fs p c) w = listNFTs baseDir fs w := by
  unfold listNFTs fsWrite
  rw [List.filterMap_cons]
  dsimp only
  rw [hp, if_neg Bool.false_ne_true]
  exact filterMap_filter_of_none fs _ _ (fun e he => by
    have hep : e.1 = p := by
      have hb := congrArg Bool.not he
      simpa using hb
    simp [hep, hp])

theorem listNFTs_write_data_fresh (baseDir w : String) (fs : FS) (p : List String)
    (st : StoredNFTRec) (hp : isWalletNFTData baseDir w p = true)
    (hfresh : fsRead fs p = none) :
    listNFTs baseDir (fsWrite fs p (.nftData st)) w =
      st :: listNFTs baseDir fs w := by
  have hnone : ∀ e ∈ fs, ¬((fun e : List String × FileContent => e.1 == p) e = true) := by
    rw [← List.find?_eq_none]
    simpa [fsRead] using hfresh
  have hfil : fs.filter (fun e => !(e.1 == p)) = fs := by
    rw [List.filter_eq_self]
    intro e he
    simpa using hnone e he
  unfold listNFTs fsWrite
  rw [hfil, List.filterMap_cons]
  dsimp only
  rw [hp, if_pos rfl]

theorem getLast?_append_singleton (l : List String) (a : String) :
    (l ++ [a]).getLast? = some a := by
  simp

theorem isWalletNFTData_file (baseDir w owner mint f : String) :
    isWalletNFTData baseDir w (buildNFTPath baseDir owner mint ++ [f]) =
      ((w == owner) && (f == "nft_data.json")) := by
  simp [isWalletNFTData, buildNFTPath, List.isPrefixOf, getLast?_append_singleton]

theorem saveNFT_list_length (sha : String → String) (baseDir w : String)
    (fs : FS) (r : NFTInfoRec) (now : Nat) (hw : r.owner = w)
    (hfresh : fsRead fs (nftDataPath baseDir w r.mintAddress) = none) :
    (listNFTs baseDir (saveNFT sha baseDir fs r now) w).length =
      (listNFTs baseDir fs w).length + 1 := by
  have hmetaU : isWalletNFTData baseDir w
      (buildNFTPath baseDir r.owner r.mintAddress ++ ["metadata.json"]) = false := by
    rw [isWalletNFTData_file]
    simp
  have hmanU : isWalletNFTData baseDir w
      (buildNFTPath baseDir r.owner r.mintAddress ++ ["media_manifest.json"]) = false := by
    rw [isWalletNFTData_file]
    simp
  have hdataC : isWalletNFTData baseDir w
      (buildNFTPath baseDir r.owner r.mintAddress ++ ["nft_data.json"]) = true := by
    rw [isWalletNFTData_file, hw]
    simp
  have hfresh2 : fsRead fs
      (buildNFTPath baseDir r.owner r.mintAddress ++ ["nft_data.json"]) = none := by
    rw [hw]
    exact hfresh
  unfold saveNFT
  cases hmo : r.metadata <;> split_ifs <;>
    simp [listNFTs_write_uncounted _ _ _ _ _ hmetaU,
      listNFTs_write_uncounted _ _ _ _ _ hmanU,
      listNFTs_write_data_fresh _ _ _ _ _ hdataC hfresh2]

theorem listNFTs_fold_saves (sha : String → String) (baseDir w : String)
    (now : Nat) (recs : List NFTInfoRec) :
    ∀ fs : FS, (∀ r ∈ recs, r.owner = w) →
      (recs.map NFTInfoRec.mintAddress).Nodup →
      (∀ r ∈ recs, fsRead fs (nftDataPath baseDir w r.mintAddress) = none) →
      (listNFTs baseDir
          (recs.foldl (fun acc r => saveNFT sha baseDir acc r now) fs) w).length =
        (listNFTs baseDir fs w).length + recs.length := by
  induction recs with
  | nil =>
    intro fs _ _ _
    simp
  | cons r recs ih =>
    intro fs hown hnodup hfresh
    rw [List.foldl_cons]
    have hw : r.owner = w := hown r (by simp)
    have hfr : fsRead fs (nftDataPath baseDir w r.mintAddress) = none :=
      hfresh r (by simp)
    have hnm := (List.nodup_cons.mp hnodup).1
    have htail : ∀ q ∈ recs,
        fsRead (saveNFT sha baseDir fs r now)
          (nftDataPath baseDir w q.mintAddress) = none := by
      intro q hq
      have hqm : q.mintAddress ≠ r.mintAddress := fun he =>
        hnm (he ▸ List.mem_map_of_mem _ hq)
      have hne1 : nftDataPath baseDir w q.mintAddress ≠
          buildNFTPath baseDir r.owner r.mintAddress ++ ["nft_data.json"] := by
        rw [hw, nftDataPath, Ne, nftFile_eq_iff]
        simp [hqm]
      have hne2 : nftDataPath baseDir w q.mintAddress ≠
          buildNFTPath baseDir r.owner r.mintAddress ++ ["metadata.json"] := by
        rw [hw, nftDataPath, Ne, nftFile_eq_iff]
        simp
      have hne3 : nftDataPath baseDir w q.mintAddress ≠
          buildNFTPath baseDir r.owner r.mintAddress ++ ["media_manifest.json"] := by
        rw [hw, nftDataPath, Ne, nftFile_eq_iff]
        simp
      unfold saveNFT
      cases hmo : r.metadata <;> split_ifs <;>
        simp [fsRead_write_other _ _ _ _ hne3, fsRead_write_other _ _ _ _ hne2,
          fsRead_write_other _ _ _ _ hne1, hfresh q (by simp [hq])]
    have hlen := saveNFT_list_length sha baseDir w fs r now hw hfr
    have hih := ih (saveNFT sha baseDir fs r now)
      (fun q hq => hown q (by simp [hq])) (List.Nodup.of_cons hnodup) htail
    rw [hih, hlen]
    simp [Nat.add_assoc, Nat.add_comm 1]

/-- C8: after N sequential SaveNFT calls for N distinct mints of one
owner into an empty store, ListNFTs returns exactly N records; the pair
of owner and mint uniquely determines the storage path, so no two records
share a path and no save overwrites another mint. -/
theorem C8_list_count_after_saves (sha256hex : String → String)
    (baseDir w : String) (now : Nat) (recs : List NFTInfoRec)
    (hown : ∀ r ∈ recs, r.owner = w)
    (hnodup : (recs.map NFTInfoRec.mintAddress).Nodup) :
    (listNFTs baseDir
        (recs.foldl (fun acc r => saveNFT sha256hex baseDir acc r now)
          ([] : FS)) w).length = recs.length ∧
    (∀ w1 m1 w2 m2 : String,
      buildNFTPath baseDir w1 m1 = buildNFTPath baseDir w2 m2 →
        w1 = w2 ∧ m1 = m2) := by
  constructor
  · have h := listNFTs_fold_saves sha256hex baseDir w now recs [] hown hnodup
      (fun r hr => rfl)
    simpa [listNFTs] using h
  · intro w1 m1 w2 m2 h
    exact buildNFTPath_inj baseDir w1 m1 w2 m2 h

def c8Rec1 : NFTInfoRec :=
  { mintAddress := "m1", owner := "w", metadata := none, mediaFiles := [] }

def c8Rec2 : NFTInfoRec :=
  { mintAddress := "m2", owner := "w", metadata := none, mediaFiles := [] }

/-- Witness for C8: two saves of distinct mints for the same owner into
an empty store list exactly two records. -/
theorem C8_list_count_after_saves_witness :
    (listNFTs "base"
        ([c8Rec1, c8Rec2].foldl
          (fun acc r => saveNFT (fun s => s) "base" acc r 7) ([] : FS)) "w").length
      = 2 :=
  (C8_list_count_after_saves (fun s => s) "base" "w" 7 [c8Rec1, c8Rec2]
    (by decide) (by decide)).1

def c7Rec : NFTInfoRec :=
  { mintAddress := "mintA", owner := "walletA",
    metadata := some { name := "Test NFT", symbol := "T", image := "i.png" },
    mediaFiles := ["i.png"] }

/-- Witness for C7: a concrete save and get round-trip succeeds. -/
theorem C7_save_get_roundtrip_witness :
    (getNFT "base" (saveNFT (fun s => s) "base" [] c7Rec 3)
      c7Rec.owner c7Rec.mintAddress).isOk = true := by
  obtain ⟨st, h1, _⟩ := C7_save_get_roundtrip (fun s => s) "base" [] c7Rec 3
  rw [h1]
  rfl

def c9Rec : NFTInfoRec :=
  { mintAddress := "mintB", owner := "walletB", metadata := none,
    mediaFiles := [] }

/-- Witness for C9: the concrete stored record after a save carries
version 1, verified false, zero last-check and the fresh checksum. -/
theorem C9_save_resets_storage_metadata_witness :
    getNFT "base" (saveNFT (fun s => s) "base" [] c9Rec 5)
        c9Rec.owner c9Rec.mintAddress =
      .ok { nftInfo := c9Rec, storedAt := 5, updatedAt := 5, version := 1,
            checksum := encodeNFTInfo c9Rec,
            backupPath := buildNFTPath "base" c9Rec.owner c9Rec.mintAddress,
            verified := false, lastCheck := 0 } :=
  C9_save_resets_storage_metadata (fun s => s) "base" [] c9Rec 5

end SolVault
